import Mathlib

/-!
A verification development for the "Ralph loop" parallel task runner
(`claude/scripts/ralph-loop.ts`).  The TypeScript orchestrator is shallowly
embedded: the JSON task document becomes a Lean structure, the mutable
in-process state (task document, persisted file contents, subprocess map,
run-directory files) becomes an explicit state record, and each operation of
the scheduler becomes a pure state-transforming function.  JavaScript number
arithmetic on the small task counts is modelled as exact arithmetic on `Nat`
and `Int`.  A JavaScript operation that throws (such as `String.repeat` with a
negative count) is modelled by an `Option` result, `none` standing for the
thrown exception.
-/

set_option autoImplicit false

namespace Ralph

/-- A task entry of the JSON task document (`interface Task`): an `id`, an
optional `title`, an optional `status` string, and arbitrary further
caller-defined fields which the orchestrator preserves opaquely (modelled as
an association list of string fields). -/
structure Task where
  id : String
  title : Option String
  status : Option String
  extra : List (String × String)
deriving Repr, DecidableEq

/-- The top-level JSON task document (`interface PrdConfig`). -/
structure PrdConfig where
  project : Option String
  maxParallel : Option Int
  checkInterval : Option Int
  promptFile : Option String
  completedAt : Option String
  tasks : List Task
deriving Repr, DecidableEq

/-- `RalphLoop.tasksByStatus`: the tasks whose `status` field is exactly the
given string (`t.status === statusValue`; a task with no `status` field
matches nothing). -/
def tasksByStatus (tasks : List Task) (statusValue : String) : List Task :=
  tasks.filter (fun t => decide (t.status = some statusValue))

/-- `RalphLoop.countByStatus`: number of tasks with the given status. -/
def countByStatus (tasks : List Task) (statusValue : String) : Nat :=
  (tasksByStatus tasks statusValue).length

/-- The effect of `tasks.find(t => t.id === taskId)` followed by a mutation
`task.status = newStatus` of the found object: the first task with the given
id gets the new status, all other list entries are untouched. -/
def setStatusFirst (tasks : List Task) (taskId : String) (newStatus : String) :
    List Task :=
  match tasks with
  | [] => []
  | t :: rest =>
    if t.id = taskId then { t with status := some newStatus } :: rest
    else t :: setStatusFirst rest taskId newStatus

/-- `RalphLoop.resetRunningTasksToPending`, restricted to its effect on the
tasks array read from the file: every task whose status is `running` is set to
`pending`; every other task is left as it is. -/
def resetRunningTasksToPending (tasks : List Task) : List Task :=
  tasks.map (fun t =>
    if t.status = some "running" then { t with status := some "pending" } else t)

/-- `RalphLoop.reloadPrd`.  The outcome of `JSON.parse` on the current file
contents is passed in as `parsed` (`some config` for a well-formed document,
`none` when `JSON.parse` throws on content that is not valid JSON); `prd` is
the previously loaded in-memory configuration.  Returns the boolean result of
`reloadPrd` together with the in-memory configuration after the call. -/
def reloadPrd (parsed : Option PrdConfig) (prd : PrdConfig) : Bool × PrdConfig :=
  match parsed with
  | some newPrd => (true, newPrd)
  | none => (false, prd)

/-! ### Worker input composition (`RalphLoop.startTask`) -/

/-- JSON string escaping as performed by `JSON.stringify` on a string value
(quote, backslash, and control characters). -/
def jsonEscapeChar (c : Char) : List Char :=
  if c = '"' then ['\\', '"']
  else if c = '\\' then ['\\', '\\']
  else if c = '\n' then ['\\', 'n']
  else if c = '\r' then ['\\', 'r']
  else if c = '\t' then ['\\', 't']
  else if c = '\x08' then ['\\', 'b']
  else if c = '\x0c' then ['\\', 'f']
  else if c.toNat < 32 then
    ['\\', 'u', '0', '0', Nat.digitChar (c.toNat / 16), Nat.digitChar (c.toNat % 16)]
  else [c]

/-- JSON string escaping lifted to strings. -/
def jsonEscape (s : String) : String :=
  String.mk (s.data.flatMap jsonEscapeChar)

/-- A JSON string literal: the escaped contents between double quotes. -/
def jsonQuote (s : String) : String :=
  "\"" ++ jsonEscape s ++ "\""

/-- The fields of a task as serialized by `JSON.stringify(task, null, 2)`:
field name paired with its rendered JSON value, in insertion order (`id`
first, then `title` and `status` when present, then the preserved extra
fields). -/
def taskJsonFields (t : Task) : List (String × String) :=
  [("id", jsonQuote t.id)]
    ++ (match t.title with | some v => [("title", jsonQuote v)] | none => [])
    ++ (match t.status with | some v => [("status", jsonQuote v)] | none => [])
    ++ t.extra.map (fun p => (p.1, jsonQuote p.2))

/-- One rendered field line of the 2-space-indented JSON object. -/
def fieldLine (p : String × String) : String :=
  "  " ++ jsonQuote p.1 ++ ": " ++ p.2

/-- The field lines of the 2-space-indented JSON object, joined by `",\n"`. -/
def fieldLines : List (String × String) → String
  | [] => ""
  | [p] => fieldLine p
  | p :: q :: rest => fieldLine p ++ ",\n" ++ fieldLines (q :: rest)

/-- `JSON.stringify(task, null, 2)`: the pretty-printed JSON object for a
task. -/
def taskJson (t : Task) : String :=
  "\x7b\n" ++ fieldLines (taskJsonFields t) ++ "\n\x7d"

/-- The composed worker input written by `startTask`:
`# YOUR ASSIGNED TASK` header, the task rendered as a fenced JSON block, then
the shared prompt file contents. -/
def composeTaskPrompt (t : Task) (promptContent : String) : String :=
  "# YOUR ASSIGNED TASK\n\n\x60\x60\x60json\n" ++ taskJson t ++ "\n\x60\x60\x60\n\n"
    ++ promptContent

/-- The task-identifying block that `startTask` prepends to the shared prompt
content (everything of the composed input before the prompt contents). -/
def taskPromptBlock (t : Task) : String :=
  "# YOUR ASSIGNED TASK\n\n\x60\x60\x60json\n" ++ taskJson t ++ "\n\x60\x60\x60\n\n"

/-! ### Orchestrator state and state-changing operations -/

/-- The observable state of the orchestrator: the in-memory document
(`this.prd`), the persisted file contents (written by `savePrd`), the
in-memory subprocess map (`this.subprocesses`, task id to pid), the per-task
scratch prompt files and log files of the run directory (file name to
content, respectively file name), and the chronological list of spawned task
ids. -/
structure RalphState where
  prd : PrdConfig
  persisted : PrdConfig
  subprocs : List (String × Nat)
  scratchFiles : List (String × String)
  logFiles : List String
  spawned : List String
deriving Repr, DecidableEq

/-- `RalphLoop.startTask`.  `promptContent` is the contents of the shared
prompt file, `newPid` the pid of the subprocess that `Bun.spawn` would
return.  When no task has the given id the function returns before doing
anything observable; otherwise it writes the composed per-task prompt to the
scratch file, spawns the worker with output redirected to the per-task log
file, records the subprocess in the map, marks the task `running`, and
persists the document. -/
def startTask (st : RalphState) (promptContent : String) (taskId : String)
    (newPid : Nat) : RalphState :=
  match st.prd.tasks.find? (fun t => decide (t.id = taskId)) with
  | none => st
  | some task =>
    let promptFilePath := taskId ++ "-prompt.txt"
    let logFile := taskId ++ ".log"
    let taskPrompt := composeTaskPrompt task promptContent
    let newPrd := { st.prd with tasks := setStatusFirst st.prd.tasks taskId "running" }
    { prd := newPrd
      persisted := newPrd
      subprocs := (taskId, newPid) :: st.subprocs.filter (fun p => decide (¬ p.1 = taskId))
      scratchFiles :=
        (promptFilePath, taskPrompt)
          :: st.scratchFiles.filter (fun p => decide (¬ p.1 = promptFilePath))
      logFiles := logFile :: st.logFiles.filter (fun f => decide (¬ f = logFile))
      spawned := taskId :: st.spawned }

/-- `RalphLoop.processFinishedTask`.  If a task with the given id exists, its
status becomes `completed` for exit code 0 and `failed` otherwise and the full
document is persisted; in every case the id is removed from the subprocess
map.  No run-directory file is touched. -/
def processFinishedTask (st : RalphState) (taskId : String) (exitCode : Int) :
    RalphState :=
  if (st.prd.tasks.find? (fun t => decide (t.id = taskId))).isSome then
    let newPrd :=
      { st.prd with
        tasks := setStatusFirst st.prd.tasks taskId
          (if exitCode = 0 then "completed" else "failed") }
    { st with
      prd := newPrd
      persisted := newPrd
      subprocs := st.subprocs.filter (fun p => decide (¬ p.1 = taskId)) }
  else
    { st with subprocs := st.subprocs.filter (fun p => decide (¬ p.1 = taskId)) }

/-! ### Rendering -/

/-- `Math.round(num / denom)` for natural `num` and positive natural `denom`:
round half away from zero, computed exactly on naturals. -/
def jsRound (num denom : Nat) : Nat :=
  (2 * num + denom) / (2 * denom)

/-- `c.repeat(n)` for a single character. -/
def repeatChar (c : Char) (n : Nat) : String :=
  String.mk (List.replicate n c)

/-- `RalphLoop.renderProgressBar`.  For `total == 0` the divisionless fixed
bar is returned.  Otherwise percent and filled-block count are the rounded
ratios; `"░".repeat(width - filled)` throws a `RangeError` when
`width - filled` is negative, which is modelled by returning `none`. -/
def renderProgressBar (completed total : Nat) (width : Nat := 30) :
    Option String :=
  if total = 0 then
    some ("[" ++ repeatChar '░' width ++ "] 0% (0/0 completed)")
  else
    let percent := jsRound (completed * 100) total
    let filled := jsRound (completed * width) total
    if filled ≤ width then
      some ("[" ++ repeatChar '█' filled ++ repeatChar '░' (width - filled)
        ++ "] " ++ Nat.repr percent ++ "% (" ++ Nat.repr completed ++ "/"
        ++ Nat.repr total ++ " completed)")
    else none

/-! ### The scheduler iteration -/

/-- Outcome of one pass of `mainLoop` from the point where the per-iteration
counts have been computed: either the process exits with the given status
code after persisting the given document, or the loop continues after
admission control started the listed task ids. -/
inductive IterOutcome where
  | exited (code : Nat) (saved : PrdConfig)
  | continued (startedIds : List String)
deriving Repr, DecidableEq

/-- Admission control of `mainLoop`: with `available = maxParallel -
aliveCount` slots, start pending tasks in document order while slots remain. -/
def admissionStarts (tasks : List Task) (maxParallel : Int) (aliveCount : Nat) :
    List String :=
  let available : Int := maxParallel - (aliveCount : Int)
  if 0 < available then
    ((tasksByStatus tasks "pending").take available.toNat).map Task.id
  else []

/-- One decision pass of `RalphLoop.mainLoop` over the freshly reloaded and
reconciled document `prd`: compute the counts; if no task is pending and none
is running and the document is non-empty, write `completedAt := now`, persist,
and exit with status 1 when any task failed and 0 otherwise; else run
admission control, where `aliveCount` is the number of tracked subprocesses
whose process is currently alive. -/
def mainLoopIteration (prd : PrdConfig) (maxParallel : Int) (aliveCount : Nat)
    (now : String) : IterOutcome :=
  let pendingCount := countByStatus prd.tasks "pending"
  let runningCount := countByStatus prd.tasks "running"
  let failedCount := countByStatus prd.tasks "failed"
  let total := prd.tasks.length
  if pendingCount = 0 ∧ runningCount = 0 ∧ 0 < total then
    .exited (if 0 < failedCount then 1 else 0) { prd with completedAt := some now }
  else
    .continued (admissionStarts prd.tasks maxParallel aliveCount)

/-- The task ids started by an iteration (none when the iteration exits). -/
def startedIdsOf : IterOutcome → List String
  | .exited _ _ => []
  | .continued ids => ids

/-! ### Specification-side definitions -/

/-- Modelled from the spec: the rounding function of the progress-bar
property, `round(num/denom)` as exact rational rounding half up, used to
compare the rendering code against the specified formula. -/
def specRound (num denom : Nat) : Nat :=
  Nat.floor ((num : ℚ) / (denom : ℚ) + 1 / 2)

/-- `needle` occurs verbatim as a contiguous substring of `hay`. -/
def ContainsSubstr (needle hay : String) : Prop :=
  ∃ pre post, hay.data = pre ++ needle.data ++ post

/-- Executable check that the first list is an initial segment of the
second. -/
def leadsWith : List Char → List Char → Bool
  | [], _ => true
  | _ :: _, [] => false
  | c :: cs, d :: ds => decide (c = d) && leadsWith cs ds

/-- Executable check that `needle` occurs contiguously inside the second
list, used to refute `ContainsSubstr` on concrete strings. -/
def occursIn (needle : List Char) : List Char → Bool
  | [] => needle.isEmpty
  | d :: ds => leadsWith needle (d :: ds) || occursIn needle ds

/-! ### Small concrete fixtures used to instantiate the theorems -/

/-- A task whose id contains a double quote, so that `JSON.stringify`
escapes it. -/
def quoteIdTask : Task :=
  { id := "a\"b", title := none, status := none, extra := [] }

/-- A document holding only `quoteIdTask`. -/
def quoteIdPrd : PrdConfig :=
  { project := none, maxParallel := none, checkInterval := none,
    promptFile := none, completedAt := none, tasks := [quoteIdTask] }

/-- An orchestrator state over `quoteIdPrd` with nothing running yet. -/
def quoteIdState : RalphState :=
  { prd := quoteIdPrd, persisted := quoteIdPrd, subprocs := [],
    scratchFiles := [], logFiles := [], spawned := [] }

/-- A task currently marked `running`. -/
def runningTask : Task :=
  { id := "t1", title := none, status := some "running", extra := [] }

/-- A task marked `completed`. -/
def completedTask : Task :=
  { id := "t1", title := none, status := some "completed", extra := [] }

/-- A task whose status string is not one of the four recognized values. -/
def corruptTask : Task :=
  { id := "t1", title := none, status := some "corrupted", extra := [] }

/-- A `pending` task. -/
def pendingTask (taskId : String) : Task :=
  { id := taskId, title := some "demo", status := some "pending", extra := [] }

/-- A small document with a single running task. -/
def demoPrd : PrdConfig :=
  { project := some "demo", maxParallel := some 2, checkInterval := some 15,
    promptFile := none, completedAt := none, tasks := [runningTask] }

/-- A document whose single task has completed. -/
def donePrd : PrdConfig :=
  { project := some "demo", maxParallel := some 2, checkInterval := some 15,
    promptFile := none, completedAt := none, tasks := [completedTask] }

/-- A document stuck with a single corrupted task. -/
def stuckPrd : PrdConfig :=
  { project := none, maxParallel := none, checkInterval := none,
    promptFile := none, completedAt := none, tasks := [corruptTask] }

/-- A document with two pending tasks. -/
def pendingPrd : PrdConfig :=
  { project := some "demo", maxParallel := some 2, checkInterval := some 15,
    promptFile := none, completedAt := none, tasks := [pendingTask "t1", pendingTask "t2"] }

/-- An orchestrator state tracking the running task of `demoPrd`. -/
def demoState : RalphState :=
  { prd := demoPrd, persisted := demoPrd, subprocs := [("t1", 42)],
    scratchFiles := [], logFiles := ["t1.log"], spawned := ["t1"] }

/-! ### Helper lemmas -/

theorem find?_setStatusFirst (tasks : List Task) (taskId s : String) (tk : Task)
    (h : tasks.find? (fun t => decide (t.id = taskId)) = some tk) :
    (setStatusFirst tasks taskId s).find? (fun t => decide (t.id = taskId))
      = some { tk with status := some s } := by
  induction tasks with
  | nil => simp at h
  | cons t rest ih =>
    by_cases ht : t.id = taskId
    · rw [List.find?_cons_of_pos _ (by simp [ht])] at h
      injection h with h
      subst h
      rw [setStatusFirst, if_pos ht]
      exact List.find?_cons_of_pos _ (by simp [ht])
    · rw [List.find?_cons_of_neg _ (by simp [ht])] at h
      rw [setStatusFirst, if_neg ht]
      rw [List.find?_cons_of_neg _ (by simp [ht])]
      exact ih h

theorem find?_of_mem_id (tasks : List Task) (taskId : String)
    (h : taskId ∈ tasks.map Task.id) :
    ∃ tk, tasks.find? (fun t => decide (t.id = taskId)) = some tk := by
  obtain ⟨x, hx, hid⟩ := List.mem_map.mp h
  have hsome : (tasks.find? (fun t => decide (t.id = taskId))).isSome := by
    rw [List.find?_isSome]
    exact ⟨x, hx, by simp [hid]⟩
  exact Option.isSome_iff_exists.mp hsome

theorem digitChar_toNat_lt (d : Nat) : (Nat.digitChar d).toNat < 123 := by
  rcases Nat.lt_or_ge d 16 with h | h
  · interval_cases d <;> decide
  · have h16 : Nat.digitChar d = '*' := by
      unfold Nat.digitChar
      rw [if_neg (show ¬ d = 0 by omega), if_neg (show ¬ d = 1 by omega),
        if_neg (show ¬ d = 2 by omega), if_neg (show ¬ d = 3 by omega),
        if_neg (show ¬ d = 4 by omega), if_neg (show ¬ d = 5 by omega),
        if_neg (show ¬ d = 6 by omega), if_neg (show ¬ d = 7 by omega),
        if_neg (show ¬ d = 8 by omega), if_neg (show ¬ d = 9 by omega),
        if_neg (show ¬ d = 10 by omega), if_neg (show ¬ d = 11 by omega),
        if_neg (show ¬ d = 12 by omega), if_neg (show ¬ d = 13 by omega),
        if_neg (show ¬ d = 14 by omega), if_neg (show ¬ d = 15 by omega)]
    rw [h16]
    decide

theorem toDigitsCore_sound (b : Nat) :
    ∀ (fuel n : Nat) (ds : List Char) (c : Char),
      c ∈ Nat.toDigitsCore b fuel n ds → c ∈ ds ∨ c.toNat < 123 := by
  intro fuel
  induction fuel with
  | zero =>
    intro n ds c h
    simp only [Nat.toDigitsCore] at h
    exact Or.inl h
  | succ fuel ih =>
    intro n ds c h
    simp only [Nat.toDigitsCore] at h
    split at h
    · rcases List.mem_cons.mp h with h' | h'
      · exact Or.inr (h' ▸ digitChar_toNat_lt _)
      · exact Or.inl h'
    · rcases ih (n / b) (Nat.digitChar (n % b) :: ds) c h with h' | h'
      · rcases List.mem_cons.mp h' with h'' | h''
        · exact Or.inr (h'' ▸ digitChar_toNat_lt _)
        · exact Or.inl h''
      · exact Or.inr h'

theorem repr_char_lt {c : Char} {n : Nat} (h : c ∈ (Nat.repr n).data) :
    c.toNat < 123 := by
  have h2 : c ∈ Nat.toDigitsCore 10 (n + 1) n [] := by
    simpa [Nat.repr, Nat.toDigits, List.asString] using h
  rcases toDigitsCore_sound 10 (n + 1) n [] c h2 with h' | h'
  · simp at h'
  · exact h'

theorem count_repr_eq_zero {c : Char} (hc : 122 < c.toNat) (n : Nat) :
    (Nat.repr n).data.count c = 0 :=
  List.count_eq_zero.mpr (fun h => absurd (repr_char_lt h) (by omega))

theorem specRound_eq_jsRound (a b : Nat) (hb : 0 < b) :
    specRound a b = jsRound a b := by
  unfold specRound jsRound
  have hb' : ((b : ℚ)) ≠ 0 := by exact_mod_cast hb.ne'
  have h1 : (a : ℚ) / (b : ℚ) + 1 / 2
      = ((2 * a + b : Nat) : ℚ) / (((2 * b : Nat) : ℚ)) := by
    push_cast
    field_simp
    ring
  rw [h1]
  rw [Nat.floor_div_nat ((2 * a + b : Nat) : ℚ) (2 * b), Nat.floor_natCast]

theorem jsRound_le (c t w : Nat) (hct : c ≤ t) (ht : 0 < t) :
    jsRound (c * w) t ≤ w := by
  unfold jsRound
  have h1 : 2 * (c * w) + t ≤ 2 * (t * w) + t := by
    have := Nat.mul_le_mul_right w hct
    omega
  calc (2 * (c * w) + t) / (2 * t)
      ≤ (2 * (t * w) + t) / (2 * t) := Nat.div_le_div_right h1
    _ = (t * (2 * w + 1)) / (t * 2) := by
        rw [show 2 * (t * w) + t = t * (2 * w + 1) by ring,
          show 2 * t = t * 2 by ring]
    _ = (2 * w + 1) / 2 := Nat.mul_div_mul_left _ _ ht
    _ = w := by omega

theorem repeatChar_data (c : Char) (n : Nat) :
    (repeatChar c n).data = List.replicate n c := rfl

theorem containsSubstr_refl (s : String) : ContainsSubstr s s :=
  ⟨[], [], by simp⟩

theorem ContainsSubstr.append_left {needle hay : String}
    (hc : ContainsSubstr needle hay) (s : String) :
    ContainsSubstr needle (hay ++ s) := by
  obtain ⟨pre, post, hh⟩ := hc
  exact ⟨pre, post ++ s.data, by rw [String.data_append, hh]; simp⟩

theorem ContainsSubstr.append_right {needle hay : String}
    (hc : ContainsSubstr needle hay) (s : String) :
    ContainsSubstr needle (s ++ hay) := by
  obtain ⟨pre, post, hh⟩ := hc
  exact ⟨s.data ++ pre, post, by rw [String.data_append, hh]; simp⟩

theorem leadsWith_append (n post : List Char) : leadsWith n (n ++ post) = true := by
  induction n with
  | nil => rfl
  | cons c cs ih => simp [leadsWith, ih]

theorem occursIn_self_append (nd post : List Char) :
    occursIn nd (nd ++ post) = true := by
  cases nd with
  | nil =>
    cases post with
    | nil => rfl
    | cons d ds => simp [occursIn, leadsWith]
  | cons c cs =>
    have h := leadsWith_append (c :: cs) post
    simp only [List.cons_append, occursIn] at h ⊢
    simp [h]

theorem containsSubstr_occursIn {n h : String} (hc : ContainsSubstr n h) :
    occursIn n.data h.data = true := by
  obtain ⟨pre, post, hh⟩ := hc
  rw [hh]
  clear hh
  induction pre with
  | nil => simpa using occursIn_self_append n.data post
  | cons p pre' ih =>
    have hstep : occursIn n.data ((p :: pre') ++ n.data ++ post)
        = (leadsWith n.data ((p :: pre') ++ n.data ++ post)
            || occursIn n.data (pre' ++ n.data ++ post)) := rfl
    rw [hstep, ih]
    simp

theorem fieldLines_cons_data (p : String × String)
    (rest : List (String × String)) :
    ∃ tail, (fieldLines (p :: rest)).data = (fieldLine p).data ++ tail := by
  cases rest with
  | nil => exact ⟨[], by simp [fieldLines]⟩
  | cons q tl =>
    exact ⟨(",\n" ++ fieldLines (q :: tl)).data, by
      simp [fieldLines, String.data_append]⟩

/-! ### Claim theorems -/

/-- Claim C5: the crash-recovery/shutdown reset changes exactly the tasks
whose status is `running`, setting each of them to `pending`, and leaves
every other task (and every other field of every task) unchanged. -/
theorem resetRunning_frame (tasks : List Task) (i : Nat) (t : Task)
    (h : tasks[i]? = some t) :
    (resetRunningTasksToPending tasks).length = tasks.length
    ∧ (t.status = some "running" →
        (resetRunningTasksToPending tasks)[i]? =
          some { id := t.id, title := t.title, status := some "pending",
                 extra := t.extra })
    ∧ (¬ t.status = some "running" →
        (resetRunningTasksToPending tasks)[i]? = some t) := by
  refine ⟨List.length_map _ _, ?_, ?_⟩
  · intro hr
    simp [resetRunningTasksToPending, List.getElem?_map, h, hr]
  · intro hr
    simp [resetRunningTasksToPending, List.getElem?_map, h, hr]

/-- Witness for C5 at a concrete one-element task list. -/
theorem resetRunning_frame_witness :
    (resetRunningTasksToPending [runningTask]).length = ([runningTask] : List Task).length
    ∧ (runningTask.status = some "running" →
        (resetRunningTasksToPending [runningTask])[0]? =
          some { id := runningTask.id, title := runningTask.title,
                 status := some "pending", extra := runningTask.extra })
    ∧ (¬ runningTask.status = some "running" →
        (resetRunningTasksToPending [runningTask])[0]? = some runningTask) :=
  resetRunning_frame [runningTask] 0 runningTask rfl

/-- Claim C6: when the state file's content is not valid JSON (`JSON.parse`
yields no document), `reloadPrd` returns `false` without throwing and the
previously loaded in-memory configuration, including its tasks array, is
unchanged. -/
theorem reloadPrd_invalid (parsed : Option PrdConfig) (prd : PrdConfig)
    (h : parsed = none) :
    reloadPrd parsed prd = (false, prd)
    ∧ (reloadPrd parsed prd).2 = prd
    ∧ (reloadPrd parsed prd).2.tasks = prd.tasks := by
  subst h
  exact ⟨rfl, rfl, rfl⟩

/-- Witness for C6 at a concrete configuration. -/
theorem reloadPrd_invalid_witness :
    reloadPrd none demoPrd = (false, demoPrd)
    ∧ (reloadPrd none demoPrd).2 = demoPrd
    ∧ (reloadPrd none demoPrd).2.tasks = demoPrd.tasks :=
  reloadPrd_invalid none demoPrd rfl

/-- Claim C9: `startTask` with a task id that matches no task in the tasks
array is a no-op: no process is spawned, nothing is added to the subprocess
map, no scratch or log file is written, and neither the in-memory nor the
persisted document changes. -/
theorem startTask_unknownId (st : RalphState) (promptContent taskId : String)
    (newPid : Nat) (h : taskId ∉ st.prd.tasks.map Task.id) :
    startTask st promptContent taskId newPid = st := by
  have hfind : st.prd.tasks.find? (fun t => decide (t.id = taskId)) = none := by
    rw [List.find?_eq_none]
    intro x hx
    simp only [decide_eq_true_eq]
    intro hx'
    exact h (List.mem_map.mpr ⟨x, hx, hx'⟩)
  simp [startTask, hfind]

/-- Witness for C9: starting an id absent from the document changes nothing. -/
theorem startTask_unknownId_witness :
    startTask demoState "shared prompt" "zz" 7 = demoState :=
  startTask_unknownId demoState "shared prompt" "zz" 7 (by decide)

/-- Claim C2: for a task id present in the tasks array,
`processFinishedTask(id, exitCode)` sets that task's status to `completed`
when the exit code is 0 and to `failed` otherwise, persists the full document,
removes the id from the in-memory subprocess map, and leaves the run
directory's log and scratch files untouched. -/
theorem processFinishedTask_spec (st : RalphState) (taskId : String)
    (exitCode : Int) (h : taskId ∈ st.prd.tasks.map Task.id) :
    (∃ t', (processFinishedTask st taskId exitCode).persisted.tasks.find?
            (fun t => decide (t.id = taskId)) = some t'
        ∧ t'.status = some (if exitCode = 0 then "completed" else "failed"))
    ∧ (processFinishedTask st taskId exitCode).persisted
        = (processFinishedTask st taskId exitCode).prd
    ∧ (∀ p ∈ (processFinishedTask st taskId exitCode).subprocs, ¬ p.1 = taskId)
    ∧ (processFinishedTask st taskId exitCode).logFiles = st.logFiles
    ∧ (processFinishedTask st taskId exitCode).scratchFiles = st.scratchFiles := by
  obtain ⟨tk, hfind⟩ := find?_of_mem_id st.prd.tasks taskId h
  have hsome : (st.prd.tasks.find? (fun t => decide (t.id = taskId))).isSome := by
    rw [hfind]; rfl
  refine ⟨⟨{ tk with status := some (if exitCode = 0 then "completed" else "failed") },
      ?_, rfl⟩, ?_, ?_, ?_, ?_⟩
  · simp only [processFinishedTask, hsome, if_true]
    exact find?_setStatusFirst st.prd.tasks taskId _ tk hfind
  · simp [processFinishedTask, hsome]
  · intro p hp
    simp only [processFinishedTask, hsome, if_true] at hp
    have := (List.mem_filter.mp hp).2
    simpa using this
  · simp [processFinishedTask, hsome]
  · simp [processFinishedTask, hsome]

/-- Witness for C2 at a concrete state: the running task `t1` finishes with
exit code 0. -/
theorem processFinishedTask_spec_witness :
    (∃ t', (processFinishedTask demoState "t1" 0).persisted.tasks.find?
            (fun t => decide (t.id = "t1")) = some t'
        ∧ t'.status = some (if (0 : Int) = 0 then "completed" else "failed"))
    ∧ (processFinishedTask demoState "t1" 0).persisted
        = (processFinishedTask demoState "t1" 0).prd
    ∧ (∀ p ∈ (processFinishedTask demoState "t1" 0).subprocs, ¬ p.1 = "t1")
    ∧ (processFinishedTask demoState "t1" 0).logFiles = demoState.logFiles
    ∧ (processFinishedTask demoState "t1" 0).scratchFiles = demoState.scratchFiles :=
  processFinishedTask_spec demoState "t1" 0 (by decide)

/-- Claim C1: when an iteration's counts satisfy `pending == 0`,
`running == 0` and `total > 0`, the orchestrator writes the completion
timestamp into the document, persists it, and exits with status 0 when no
task failed and a non-zero status when some task failed. -/
theorem mainLoopIteration_terminal (prd : PrdConfig) (maxParallel : Int)
    (aliveCount : Nat) (now : String)
    (hp : countByStatus prd.tasks "pending" = 0)
    (hr : countByStatus prd.tasks "running" = 0)
    (ht : 0 < prd.tasks.length) :
    ∃ code,
      mainLoopIteration prd maxParallel aliveCount now
        = IterOutcome.exited code { prd with completedAt := some now }
      ∧ ({ prd with completedAt := some now } : PrdConfig).completedAt = some now
      ∧ (countByStatus prd.tasks "failed" = 0 → code = 0)
      ∧ (0 < countByStatus prd.tasks "failed" → code ≠ 0) := by
  refine ⟨if 0 < countByStatus prd.tasks "failed" then 1 else 0, ?_, rfl, ?_, ?_⟩
  · simp [mainLoopIteration, hp, hr, ht]
  · intro h0
    simp [h0]
  · intro hpos
    simp [hpos]

/-- Witness for C1: a document whose single task completed. -/
theorem mainLoopIteration_terminal_witness :
    ∃ code,
      mainLoopIteration donePrd 2 0 "2026-01-01T00:00:00Z"
        = IterOutcome.exited code
            { donePrd with completedAt := some "2026-01-01T00:00:00Z" }
      ∧ ({ donePrd with completedAt := some "2026-01-01T00:00:00Z" } :
            PrdConfig).completedAt = some "2026-01-01T00:00:00Z"
      ∧ (countByStatus donePrd.tasks "failed" = 0 → code = 0)
      ∧ (0 < countByStatus donePrd.tasks "failed" → code ≠ 0) :=
  mainLoopIteration_terminal donePrd 2 0 "2026-01-01T00:00:00Z"
    (by decide) (by decide) (by decide)

/-- Counterexample to claim C4: a document whose single task carries the
unrecognized status `corrupted` is a stuck state (no pending, no running, not
all tasks terminal), yet the iteration exits with status code 0 — not with a
non-zero code as the claim states. -/
theorem mainLoopIteration_stuck_counterexample :
    countByStatus stuckPrd.tasks "pending" = 0
    ∧ countByStatus stuckPrd.tasks "running" = 0
    ∧ 0 < stuckPrd.tasks.length
    ∧ ¬ (∀ t ∈ stuckPrd.tasks,
          t.status = some "completed" ∨ t.status = some "failed")
    ∧ mainLoopIteration stuckPrd 1 0 "2026-02-03T04:05:06Z"
        = IterOutcome.exited 0
            { stuckPrd with completedAt := some "2026-02-03T04:05:06Z" } := by
  decide

/-- Claim C4 as amended: if an iteration observes no running and no pending
tasks while not every task is terminal, the orchestrator still terminates
rather than looping forever — it records the completion timestamp, persists,
and exits with status 0 when the failed count is 0 (with no stuck-state
report) and a non-zero status only when some task failed. -/
theorem mainLoopIteration_stuck_exits (prd : PrdConfig) (maxParallel : Int)
    (aliveCount : Nat) (now : String)
    (hp : countByStatus prd.tasks "pending" = 0)
    (hr : countByStatus prd.tasks "running" = 0)
    (hstuck : ∃ t ∈ prd.tasks,
        ¬ (t.status = some "completed" ∨ t.status = some "failed")) :
    mainLoopIteration prd maxParallel aliveCount now
      = IterOutcome.exited
          (if 0 < countByStatus prd.tasks "failed" then 1 else 0)
          { prd with completedAt := some now } := by
  obtain ⟨t, htmem, -⟩ := hstuck
  have ht : 0 < prd.tasks.length := by
    cases hcase : prd.tasks with
    | nil => rw [hcase] at htmem; simp at htmem
    | cons a l => simp [hcase]
  simp [mainLoopIteration, hp, hr, ht]

/-- Witness for the amended C4 at the concrete stuck document. -/
theorem mainLoopIteration_stuck_exits_witness :
    mainLoopIteration stuckPrd 1 0 "2026-02-03T04:05:06Z"
      = IterOutcome.exited
          (if 0 < countByStatus stuckPrd.tasks "failed" then 1 else 0)
          { stuckPrd with completedAt := some "2026-02-03T04:05:06Z" } :=
  mainLoopIteration_stuck_exits stuckPrd 1 0 "2026-02-03T04:05:06Z"
    (by decide) (by decide) ⟨corruptTask, by decide, by decide⟩

/-- Claim C3: in a scheduling iteration, admission control starts at most
`maxParallel − aliveCount` new tasks (where `aliveCount` counts the tracked
subprocesses whose process is currently alive), and the started ids are an
initial segment — document order — of the pending tasks. -/
theorem mainLoopIteration_admission (prd : PrdConfig) (maxParallel : Int)
    (aliveCount : Nat) (now : String)
    (halive : (aliveCount : Int) ≤ maxParallel) :
    ((startedIdsOf (mainLoopIteration prd maxParallel aliveCount now)).length : Int)
        ≤ maxParallel - (aliveCount : Int)
    ∧ ∃ k, startedIdsOf (mainLoopIteration prd maxParallel aliveCount now)
        = ((tasksByStatus prd.tasks "pending").map Task.id).take k := by
  have hsub : (0 : Int) ≤ maxParallel - (aliveCount : Int) := by omega
  by_cases hterm : countByStatus prd.tasks "pending" = 0
      ∧ countByStatus prd.tasks "running" = 0 ∧ 0 < prd.tasks.length
  · refine ⟨?_, 0, ?_⟩ <;> simp [mainLoopIteration, hterm, startedIdsOf]
    exact halive
  · have hcont : mainLoopIteration prd maxParallel aliveCount now
        = IterOutcome.continued (admissionStarts prd.tasks maxParallel aliveCount) := by
      simp [mainLoopIteration, hterm]
    rw [hcont]
    simp only [startedIdsOf]
    by_cases hpos : (0 : Int) < maxParallel - (aliveCount : Int)
    · have hform : admissionStarts prd.tasks maxParallel aliveCount
          = ((tasksByStatus prd.tasks "pending").take
              (maxParallel - (aliveCount : Int)).toNat).map Task.id := by
        simp [admissionStarts, hpos]
      rw [hform]
      constructor
      · have hlen : ((tasksByStatus prd.tasks "pending").take
            (maxParallel - (aliveCount : Int)).toNat).length
            ≤ (maxParallel - (aliveCount : Int)).toNat := by
          simp [List.length_take]
        have hcast : (((maxParallel - (aliveCount : Int)).toNat : Int))
            = maxParallel - (aliveCount : Int) := Int.toNat_of_nonneg hsub
        simp only [List.length_map]
        omega
      · exact ⟨(maxParallel - (aliveCount : Int)).toNat, by rw [List.map_take]⟩
    · have hform : admissionStarts prd.tasks maxParallel aliveCount = [] := by
        simp [admissionStarts, hpos]
      rw [hform]
      exact ⟨by simpa using hsub, 0, by simp⟩

/-- Witness for C3: two pending tasks, `maxParallel = 2`, nothing alive. -/
theorem mainLoopIteration_admission_witness :
    ((startedIdsOf (mainLoopIteration pendingPrd 2 0 "t")).length : Int)
        ≤ 2 - ((0 : Nat) : Int)
    ∧ ∃ k, startedIdsOf (mainLoopIteration pendingPrd 2 0 "t")
        = ((tasksByStatus pendingPrd.tasks "pending").map Task.id).take k :=
  mainLoopIteration_admission pendingPrd 2 0 "t" (by decide)

/-- Claim C10: for `total > 0` and `completed ≤ total` the renderer does not
throw — the empty-block repeat count is never negative — and the rendered bar
holds exactly `width` block characters, filled plus empty. -/
theorem renderProgressBar_safe (completed total width : Nat)
    (ht : 0 < total) (hc : completed ≤ total) :
    ∃ s, renderProgressBar completed total width = some s
      ∧ s.data.count '█' + s.data.count '░' = width := by
  have hne : ¬ total = 0 := by omega
  have hfill : jsRound (completed * width) total ≤ width :=
    jsRound_le completed total width hc ht
  refine ⟨"[" ++ repeatChar '█' (jsRound (completed * width) total)
      ++ repeatChar '░' (width - jsRound (completed * width) total)
      ++ "] " ++ Nat.repr (jsRound (completed * 100) total) ++ "% ("
      ++ Nat.repr completed ++ "/" ++ Nat.repr total ++ " completed)",
    by simp [renderProgressBar, hne, hfill], ?_⟩
  have c1 : List.count '█' "[".data = 0 := by decide
  have c2 : List.count '░' "[".data = 0 := by decide
  have c3 : List.count '█' "] ".data = 0 := by decide
  have c4 : List.count '░' "] ".data = 0 := by decide
  have c5 : List.count '█' "% (".data = 0 := by decide
  have c6 : List.count '░' "% (".data = 0 := by decide
  have c7 : List.count '█' "/".data = 0 := by decide
  have c8 : List.count '░' "/".data = 0 := by decide
  have c9 : List.count '█' " completed)".data = 0 := by decide
  have c10 : List.count '░' " completed)".data = 0 := by decide
  have r1 := count_repr_eq_zero (show (122 : Nat) < '█'.toNat by decide)
  have r2 := count_repr_eq_zero (show (122 : Nat) < '░'.toNat by decide)
  have b1 : ('█' == '█') = true := by decide
  have b2 : ('░' == '█') = false := by decide
  have b3 : ('░' == '░') = true := by decide
  have b4 : ('█' == '░') = false := by decide
  simp only [String.data_append, List.count_append, repeatChar_data,
    List.count_replicate, b1, b2, b3, b4, if_true, if_false,
    c1, c2, c3, c4, c5, c6, c7, c8, c9, c10, r1, r2,
    show (false = true) = False by simp, show (true = true) = True by simp]
  omega

/-- Witness for C10 at `1/2` with width 4. -/
theorem renderProgressBar_safe_witness :
    ∃ s, renderProgressBar 1 2 4 = some s
      ∧ s.data.count '█' + s.data.count '░' = 4 :=
  renderProgressBar_safe 1 2 4 (by decide) (by decide)

/-- Counterexample to claim C7: at `completed = 2`, `total = 1`, width 30 the
claim's quantification (`total > 0`, no bound relating `completed` to
`total`) admits an input on which the renderer computes a filled count of 60,
hence an empty-block repeat count of `30 - 60 < 0`, and `"░".repeat` throws —
no progress-bar string is produced at all. -/
theorem renderProgressBar_formula_counterexample :
    renderProgressBar 2 1 30 = none := by decide

/-- Claim C7 as amended: restricted to `completed ≤ total`.  For `total > 0`
and `completed ≤ total` the progress-bar string reports a percentage equal to
`round(100·completed/total)` and contains `round(width·completed/total)`
filled block characters (`round` taken as exact rational rounding half up);
for `total == 0` it reports `0% (0/0 completed)` without performing any
division. -/
theorem renderProgressBar_formula (completed total width : Nat) :
    (total = 0 →
      ∃ s, renderProgressBar completed total width = some s
        ∧ ContainsSubstr "] 0% (0/0 completed)" s
        ∧ s.data.count '█' = 0)
    ∧ (0 < total → completed ≤ total →
      ∃ s, renderProgressBar completed total width = some s
        ∧ s.data.count '█' = specRound (completed * width) total
        ∧ ContainsSubstr
            ("] " ++ Nat.repr (specRound (completed * 100) total) ++ "% (") s) := by
  constructor
  · intro h0
    refine ⟨"[" ++ repeatChar '░' width ++ "] 0% (0/0 completed)",
      by simp [renderProgressBar, h0], ?_, ?_⟩
    · exact (containsSubstr_refl "] 0% (0/0 completed)").append_right
        ("[" ++ repeatChar '░' width)
    · have c1 : List.count '█' "[".data = 0 := by decide
      have c2 : List.count '█' "] 0% (0/0 completed)".data = 0 := by decide
      have b2 : ('░' == '█') = false := by decide
      simp only [String.data_append, List.count_append, repeatChar_data,
        List.count_replicate, b2, c1, c2,
        show (false = true) = False by simp, if_false]
  · intro ht hc
    have hne : ¬ total = 0 := by omega
    have hfill : jsRound (completed * width) total ≤ width :=
      jsRound_le completed total width hc ht
    rw [specRound_eq_jsRound _ _ ht, specRound_eq_jsRound _ _ ht]
    refine ⟨"[" ++ repeatChar '█' (jsRound (completed * width) total)
        ++ repeatChar '░' (width - jsRound (completed * width) total)
        ++ "] " ++ Nat.repr (jsRound (completed * 100) total) ++ "% ("
        ++ Nat.repr completed ++ "/" ++ Nat.repr total ++ " completed)",
      by simp [renderProgressBar, hne, hfill], ?_, ?_⟩
    · have c1 : List.count '█' "[".data = 0 := by decide
      have c3 : List.count '█' "] ".data = 0 := by decide
      have c5 : List.count '█' "% (".data = 0 := by decide
      have c7 : List.count '█' "/".data = 0 := by decide
      have c9 : List.count '█' " completed)".data = 0 := by decide
      have r1 := count_repr_eq_zero (show (122 : Nat) < '█'.toNat by decide)
      have b1 : ('█' == '█') = true := by decide
      have b2 : ('░' == '█') = false := by decide
      simp only [String.data_append, List.count_append, repeatChar_data,
        List.count_replicate, b1, b2, c1, c3, c5, c7, c9, r1,
        show (false = true) = False by simp, show (true = true) = True by simp,
        if_true, if_false]
      omega
    · refine ⟨"[".data ++ (repeatChar '█' (jsRound (completed * width) total)).data
          ++ (repeatChar '░' (width - jsRound (completed * width) total)).data,
        (Nat.repr completed).data ++ "/".data ++ (Nat.repr total).data
          ++ " completed)".data, ?_⟩
      simp [String.data_append]

/-- Witness for the amended C7: the zero-total case at width 3 and the main
case at `1/2` with width 4. -/
theorem renderProgressBar_formula_witness :
    (∃ s, renderProgressBar 0 0 3 = some s
      ∧ ContainsSubstr "] 0% (0/0 completed)" s
      ∧ s.data.count '█' = 0)
    ∧ (∃ s, renderProgressBar 1 2 4 = some s
      ∧ s.data.count '█' = specRound (1 * 4) 2
      ∧ ContainsSubstr ("] " ++ Nat.repr (specRound (1 * 100) 2) ++ "% (") s) :=
  ⟨(renderProgressBar_formula 0 0 3).1 rfl,
   (renderProgressBar_formula 1 2 4).2 (by decide) (by decide)⟩

theorem taskJson_contains_id (t : Task) (hesc : jsonEscape t.id = t.id) :
    ContainsSubstr t.id (taskJson t) := by
  have hfields : taskJsonFields t = ("id", jsonQuote t.id)
      :: ((match t.title with | some v => [("title", jsonQuote v)] | none => [])
          ++ (match t.status with | some v => [("status", jsonQuote v)] | none => [])
          ++ t.extra.map (fun p => (p.1, jsonQuote p.2))) := by
    simp [taskJsonFields]
  obtain ⟨tail, htail⟩ := fieldLines_cons_data ("id", jsonQuote t.id)
    ((match t.title with | some v => [("title", jsonQuote v)] | none => [])
      ++ (match t.status with | some v => [("status", jsonQuote v)] | none => [])
      ++ t.extra.map (fun p => (p.1, jsonQuote p.2)))
  refine ⟨"\x7b\n".data ++ ("  " ++ jsonQuote "id" ++ ": ").data ++ "\"".data,
    ("\"".data ++ tail) ++ "\n\x7d".data, ?_⟩
  have h1 : (taskJson t).data
      = "\x7b\n".data ++ ((fieldLines (taskJsonFields t)).data ++ "\n\x7d".data) := by
    simp [taskJson, String.data_append]
  rw [h1, hfields, htail]
  simp only [fieldLine, jsonQuote, String.data_append, hesc]
  simp [String.data_append]

theorem taskPromptBlock_contains_id (t : Task) (hesc : jsonEscape t.id = t.id) :
    ContainsSubstr t.id (taskPromptBlock t) :=
  ((taskJson_contains_id t hesc).append_right
      "# YOUR ASSIGNED TASK\n\n\x60\x60\x60json\n").append_left "\n\x60\x60\x60\n\n"

/-- Counterexample to claim C8: the claim quantifies over every task in the
tasks array, but for the task whose id is `a"b`, `JSON.stringify` embeds the
escaped form `a\"b` into the composed worker input, so the scratch file that
`startTask` writes does not contain the raw id verbatim. -/
theorem startTask_prompt_counterexample :
    (startTask quoteIdState "P" "a\"b" 5).scratchFiles.lookup
        ("a\"b" ++ "-prompt.txt")
      = some (composeTaskPrompt quoteIdTask "P")
    ∧ ¬ ContainsSubstr quoteIdTask.id (composeTaskPrompt quoteIdTask "P") := by
  constructor
  · decide
  · intro hc
    have h1 := containsSubstr_occursIn hc
    have h2 : occursIn quoteIdTask.id.data
        (composeTaskPrompt quoteIdTask "P").data = false := by decide
    exact absurd (h1.symm.trans h2) (by decide)

/-- Claim C8 as amended: restricted to tasks whose id needs no JSON escaping
(`jsonEscape id = id`, i.e. no quote, backslash, or control character).  For
such a task present in the tasks array, the worker input written to the
per-task scratch file is the task-identifying block followed by the shared
prompt content: the block is prepended, it contains the task's id, and the
full shared prompt content appears verbatim as a contiguous substring. -/
theorem startTask_prompt (st : RalphState) (promptContent taskId : String)
    (newPid : Nat) (task : Task)
    (hfind : st.prd.tasks.find? (fun t => decide (t.id = taskId)) = some task)
    (hesc : jsonEscape task.id = task.id) :
    (startTask st promptContent taskId newPid).scratchFiles.lookup
        (taskId ++ "-prompt.txt")
      = some (taskPromptBlock task ++ promptContent)
    ∧ ContainsSubstr task.id (taskPromptBlock task)
    ∧ ContainsSubstr promptContent (taskPromptBlock task ++ promptContent) := by
  refine ⟨?_, taskPromptBlock_contains_id task hesc,
    ⟨(taskPromptBlock task).data, [], by simp [String.data_append]⟩⟩
  simp only [startTask, hfind]
  simp [List.lookup]
  rfl

/-- Witness for C8: starting the tracked task `t1` of the demo state. -/
theorem startTask_prompt_witness :
    (startTask demoState "the shared prompt contents" "t1" 99).scratchFiles.lookup
        ("t1" ++ "-prompt.txt")
      = some (taskPromptBlock runningTask ++ "the shared prompt contents")
    ∧ ContainsSubstr runningTask.id (taskPromptBlock runningTask)
    ∧ ContainsSubstr "the shared prompt contents"
        (taskPromptBlock runningTask ++ "the shared prompt contents") :=
  startTask_prompt demoState "the shared prompt contents" "t1" 99 runningTask
    (by decide) (by decide)

end Ralph
